import Mathlib

/-!
Verification of the indexable-source pipeline of the bibxml-service
repository.

Part 1 embeds `sources/indexable.py` (the git-source registry wrapper
`handle_index` produced by `register_git_source`).

Part 2 embeds `main/sources.py` (`index_dataset`, its inner
`index_requested` loop, and `to_dates`).

External collaborators (git client, Django ORM store, cache store, the
relaton validation library) are modelled as explicit parameters or as
fields describing their observable behaviour, following the shallow
embedding discipline: machine-level effects become explicit state
passing, exceptions become `Except`/`Option` values.
-/

/-! ## Part 1: `sources/indexable.py` -/

/-- A positional argument of a dynamically-typed Python call.
`handle_index` passes the synchronized working directories, the
requested refs and the two callbacks; the relaton indexer lambda
additionally expects a leading dataset-version string. -/
inductive Arg where
  | str (s : String)
  | workDirs (dirs : List String)
  | refsArg (refs : Option (List String))
  | progressCb
  | errorCb
deriving DecidableEq

/-- Python-level failure of a dynamic call: a `TypeError` from an arity
mismatch, or an exception raised by the indexer body itself. -/
inductive PyErr where
  | typeError
  | indexerFailure (msg : String)
deriving DecidableEq

/-- A registered source-specific indexer, as a Python callable: its
declared arity together with its body.  The body is consulted only when
the number of supplied positional arguments matches the arity. -/
structure PyIndexer where
  arity : Nat
  run : List Arg → Except PyErr (Nat × Nat)

/-- Python positional-call semantics: calling a function with a number
of positional arguments different from its arity raises `TypeError`. -/
def pyCall (f : PyIndexer) (args : List Arg) : Except PyErr (Nat × Nat) :=
  if args.length = f.arity then f.run args else .error .typeError

/-- Static data of a registered git source: its id, its backing
repositories `(url, branch)` in registration order, and the observable
behaviour of the two external collaborators used by `handle_index`:
`workDirOf` abstracts `get_work_dir_path` (sha224-derived directory) and
`headOf` abstracts `ensure_latest` followed by `repo.head.commit.hexsha`
(the head commit hash after synchronization). -/
structure GitCtx where
  sourceId : String
  repos : List (String × String)
  workDirOf : String → String → String
  headOf : String → String → String

/-- `work_dir_paths` accumulated by the loop in `handle_index`
(indexable.py lines 204-209): one working directory per repository, in
registration order. -/
def work_dir_paths (ctx : GitCtx) : List String :=
  ctx.repos.map fun p => ctx.workDirOf p.1 p.2

/-- `repo_heads` accumulated by the loop in `handle_index` (line 227):
head commit hash of each backing repository after synchronization, in
registration order. -/
def repo_heads (ctx : GitCtx) : List String :=
  ctx.repos.map fun p => ctx.headOf p.1 p.2

/-- `heads_serialized = ', '.join(repo_heads)` (indexable.py line 229):
the Source Fingerprint. -/
def heads_serialized (ctx : GitCtx) : String :=
  String.intercalate ", " (repo_heads ctx)

/-- `latest_indexed_heads_key = f'{source_id}_latest_indexed_heads'`
(indexable.py line 165). -/
def latest_indexed_heads_key (sourceId : String) : String :=
  sourceId ++ "_latest_indexed_heads"

/-- The argument list `handle_index` passes to the registered indexer
(indexable.py lines 241-246): `(work_dir_paths, refs, on_index_progress,
on_item_error)` — four positional arguments. -/
def indexer_args (ctx : GitCtx) (refs : Option (List String)) : List Arg :=
  [.workDirs (work_dir_paths ctx), .refsArg refs, .progressCb, .errorCb]

/-- Observable outcome of one `handle_index` call: the value returned
(or the exception propagated), the cache contents afterwards, whether
the registered indexer was invoked, and with which arguments. -/
structure HandleIndexResult where
  ret : Except PyErr (Nat × Nat)
  cache : String → Option String
  invoked : Bool
  callArgs : Option (List Arg)

/-- Embedding of `handle_index` (indexable.py lines 192-258).

After synchronizing every repository and serializing the heads, the
wrapper runs the registered indexer iff `force` is set or the cached
fingerprint under `latest_indexed_heads_key` differs from the fresh
one (`cache.get` returns `none` when the key is absent, which compares
unequal to any string, as in Python).  The cache is overwritten with the
fresh fingerprint only after the indexer returns normally; an exception
from the indexer propagates and leaves the cache untouched.  Otherwise
the whole run is skipped and `(0, 0)` is returned. -/
def handle_index (ctx : GitCtx) (indexer : PyIndexer)
    (cache : String → Option String) (refs : Option (List String))
    (force : Bool) : HandleIndexResult :=
  let key := latest_indexed_heads_key ctx.sourceId
  let hs := heads_serialized ctx
  if force = true ∨ cache key ≠ some hs then
    let args := indexer_args ctx refs
    match pyCall indexer args with
    | .ok fi => ⟨.ok fi, fun k => if k = key then some hs else cache k, true, some args⟩
    | .error e => ⟨.error e, cache, true, some args⟩
  else
    ⟨.ok (0, 0), cache, false, none⟩

/-- The indexer registered for a relaton source
(`register_relaton_source`, main/sources.py lines 176-186): a lambda of
**five** positional parameters `(ds_ver, dirs, refs, on_progress,
on_error)` whose body calls `index_dataset(source_id, ds_ver,
path.join(dirs[0], 'data'), refs, on_progress, on_error)`.  The body is
abstracted by `idx`, standing for that `index_dataset` call applied to
the dataset version, the data subdirectory of the first working
directory, and the requested refs. -/
def relaton_indexer (idx : String → String → Option (List String) → Nat × Nat) :
    PyIndexer where
  arity := 5
  run := fun args =>
    match args with
    | [.str dsVer, .workDirs dirs, .refsArg refs, .progressCb, .errorCb] =>
      match dirs with
      | d :: _ => .ok (idx dsVer (d ++ "/data") refs)
      | [] => .error .typeError
    | _ => .error .typeError

/-! ## Part 2: `main/sources.py` -/

/-- A structured validation error as produced by
`pydantic.ValidationError.errors()`: a dictionary with keys `type`,
`loc` (a path of components) and `msg`. -/
structure VErr where
  type : String
  loc : List String
  msg : String
deriving DecidableEq

/-- `main.types.IndexingOutcome` (main/types.py lines 83-113): success
flag, number of validation errors, and the structured error list. -/
structure IndexingOutcome where
  success : Bool
  num_validation_errors : Nat
  validation_errors : List VErr
deriving DecidableEq

/-- The fields of `main.models.RefData` that `index_dataset` reads and
writes (main/models.py; `representations` is always set to the constant
empty dict and `ref_id`/`ref_type` are deprecated, so they are
omitted). -/
structure RefData where
  dataset : String
  ref : String
  dataset_version : String
  indexed_at : Nat
  indexing_outcome : IndexingOutcome
  body : String
  latest_date : Nat
deriving DecidableEq

/-- The record store, restricted to the operations `index_dataset`
uses: a list of `RefData` rows with `(ref, dataset)` unique. -/
abbrev Store := List RefData

/-- The raw `date` field of a deserialized record, before
`common.util.as_list` is applied: absent, a single item, or a list of
items.  Each item is the optional `value` key of a date dictionary. -/
inductive DateField where
  | absent
  | one (item : Option String)
  | many (items : List (Option String))

/-- Modelled from the spec: `common.util.as_list` is repository code not
included under `src/`.  Per the spec's date-extraction description
("scanning all date-bearing fields"), it normalizes a scalar-or-list
value into a list: a missing field yields the empty list, a single
non-list value is wrapped into a one-element list, a list is kept. -/
def as_list : DateField → List (Option String)
  | .absent => []
  | .one i => [i]
  | .many is => is

/-- Embedding of `to_dates` (main/sources.py lines 375-390), with the
two external parsers of the relaton library (`dates.parse_date_pydantic`
and `dates.parse_relaxed_date`) passed in as black boxes.  Dates are
encoded as naturals `y*10000 + m*100 + d`, which orders exactly like
calendar dates.  A missing or empty `value` is falsy in Python and is
skipped; otherwise the strict parser is tried first and the relaxed
parser (which returns a tuple whose first component is the date) is the
fallback; values neither parser accepts are dropped. -/
def to_dates (strict : String → Option Nat)
    (relaxed : String → Option (Nat × String)) :
    List (Option String) → List Nat
  | [] => []
  | item :: rest =>
    let tail := to_dates strict relaxed rest
    match item with
    | none => tail
    | some raw =>
      if raw = "" then tail
      else
        match strict raw with
        | some d => d :: tail
        | none =>
          match relaxed raw with
          | some p => p.1 :: tail
          | none => tail

/-- `max(ds or [default])` (main/sources.py lines 262-265): the maximum
of the extracted dates, or `default` when none parsed. -/
def latestDate (ds : List Nat) (default : Nat) : Nat :=
  match ds with
  | [] => default
  | d :: rest => rest.foldl max d

/-- Behaviour of one raw record document, as observed by
`index_requested` through its external collaborators: its `date` field;
the result of strict validation (`BibliographicItem(**ref_data)`):
`none` when it succeeds, `some errs` when it raises `ValidationError`
with the given structured errors; whether `normalize_relaxed` raises
(and the exception message); whether re-validating the (possibly
partially) normalized data succeeds; and the serialized bodies the two
successful validations would produce. -/
structure RawDoc where
  date : DateField
  strictResult : Option (List VErr)
  normalizeRaises : Option String
  normalizedOk : Bool
  bodyStrict : String
  bodyNormalized : String

/-- One enumerated source file: its ref (base name without extension)
and either an IO/parse failure on read (`raises`) or its parsed
document. -/
structure SrcFile where
  ref : String
  raises : Bool
  doc : RawDoc

/-- Per-run context of `index_dataset`: dataset id, dataset version,
the indexing timestamp `index_ts` (and its date, used as the
`latest_date` default), and the two external date parsers. -/
structure Ctx where
  dsId : String
  dsVersion : String
  indexTs : Nat
  indexDate : Nat
  strict : String → Option Nat
  relaxed : String → Option (Nat × String)

/-- The `defaults` dictionary passed to
`RefData.objects.update_or_create` (main/sources.py lines 322-337). -/
structure Defaults where
  dataset_version : String
  indexed_at : Nat
  indexing_outcome : IndexingOutcome
  body : String
  latest_date : Nat
deriving DecidableEq

/-- Applying the `defaults` of an upsert to an existing row: lookup keys
`ref` and `dataset` are untouched, all `defaults` fields are
overwritten. -/
def applyDefaults (d : Defaults) (r : RefData) : RefData :=
  { r with
    dataset_version := d.dataset_version
    indexed_at := d.indexed_at
    indexing_outcome := d.indexing_outcome
    body := d.body
    latest_date := d.latest_date }

/-- `RefData.objects.update_or_create(ref=..., dataset=...,
defaults=...)`: update every row matching the unique `(ref, dataset)`
key in place, or append a fresh row built from the key and the
defaults. -/
def update_or_create (store : Store) (ds rf : String) (d : Defaults) : Store :=
  if store.any fun r => decide (r.ref = rf ∧ r.dataset = ds) then
    store.map fun r =>
      if r.ref = rf ∧ r.dataset = ds then applyDefaults d r else r
  else
    store ++ [{ dataset := ds, ref := rf,
                dataset_version := d.dataset_version,
                indexed_at := d.indexed_at,
                indexing_outcome := d.indexing_outcome,
                body := d.body,
                latest_date := d.latest_date }]

/-- Mutable state threaded through one `index_dataset` run: the record
store, the local `indexed_refs` set (kept as a duplicate-free list), and
the histories of `on_progress` and `on_error` callback invocations. -/
structure RunSt where
  store : Store
  indexedRefs : List String
  progressLog : List (Nat × Nat)
  errorLog : List (String × String)

/-- Modelled from the spec: `common.pydantic.pretty_print_loc` is
repository code not included under `src/`.  Per the spec's error-report
format `"<type> at <dotted.path>: <message>"`, it joins the location
path components with dots. -/
def pretty_print_loc (loc : List String) : String :=
  String.intercalate "." loc

/-- One line of the validation-error description built at
main/sources.py lines 281-285: `"<type> at <dotted.path>: <message>"`. -/
def errLine (e : VErr) : String :=
  e.type ++ " at " ++ pretty_print_loc e.loc ++ ": " ++ e.msg

/-- `err_desc = '\n'.join(...)` (main/sources.py lines 281-285): the
multi-line, one-line-per-error description. -/
def errDesc (errs : List VErr) : String :=
  String.intercalate "\n" (errs.map errLine)

/-- The `latest_date` computed for a document (main/sources.py lines
262-265): maximum over `to_dates(as_list(ref_data.get('date', [])))`,
defaulting to `index_ts.date()`. -/
def latestDateOf (ctx : Ctx) (d : RawDoc) : Nat :=
  latestDate (to_dates ctx.strict ctx.relaxed (as_list d.date)) ctx.indexDate

/-- The persist step (main/sources.py lines 318-340): upsert the row
keyed on `(ref, dataset)` with the given outcome, body and latest date,
then add the ref to the local `indexed_refs` set. -/
def persist (ctx : Ctx) (st : RunSt) (rf : String)
    (o : IndexingOutcome) (body : String) (ld : Nat) : RunSt :=
  { st with
    store := update_or_create st.store ctx.dsId rf
      ⟨ctx.dsVersion, ctx.indexTs, o, body, ld⟩
    indexedRefs :=
      if rf ∈ st.indexedRefs then st.indexedRefs
      else st.indexedRefs ++ [rf] }

/-- The body of the `for` loop of `index_requested` (main/sources.py
lines 253-340) for one file.  Returns the new state and `true` to
continue, or `false` when reading/parsing the file raised (the only
uncaught exception path).  `report_progress(total, idx)` fires before
the file is opened, so its entry survives even a raising file.  On
strict validation success the outcome has no errors; on
`ValidationError` the original errors are recorded, `normalize_relaxed`
is attempted (an exception from it is caught and reported but does not
stop the retry), and the document is re-validated: success persists the
record flagged `success` with the original error list, failure reports
the item and skips persisting. -/
def stepFile (ctx : Ctx) (total idx : Nat) (st : RunSt) (f : SrcFile) :
    RunSt × Bool :=
  let st := { st with progressLog := st.progressLog ++ [(total, idx)] }
  if f.raises then (st, false)
  else
    let d := f.doc
    let ld := latestDateOf ctx d
    match d.strictResult with
    | none => (persist ctx st f.ref ⟨true, 0, []⟩ d.bodyStrict ld, true)
    | some errs =>
      let st :=
        match d.normalizeRaises with
        | some m =>
          { st with errorLog :=
              st.errorLog ++ [(f.ref, "Error during normalization:\n" ++ m)] }
        | none => st
      if d.normalizedOk then
        (persist ctx st f.ref ⟨true, errs.length, errs⟩ d.bodyNormalized ld,
         true)
      else
        ({ st with errorLog :=
             st.errorLog ++
               [(f.ref, "Errors not resolved (item skipped):\n" ++
                 errDesc errs)] },
         true)

/-- The inner function `index_requested` (main/sources.py lines
252-340): process the given files sequentially with a 0-based
`enumerate` index, stopping at the first uncaught exception. -/
def index_requested (ctx : Ctx) (total : Nat) :
    List SrcFile → Nat → RunSt → RunSt × Bool
  | [], _, st => (st, true)
  | f :: rest, idx, st =>
    match stepFile ctx total idx st f with
    | (st', true) => index_requested ctx total rest (idx + 1) st'
    | (st', false) => (st', false)

/-- Failures `index_dataset` can raise: the fatal
`RuntimeError("Nothing to index")` when no candidate file is found, or a
propagated read/parse error from a file. -/
inductive RunErr where
  | nothingToIndex
  | readError
deriving DecidableEq

/-- Observable outcome of one `index_dataset` call: the returned
`(total, indexed)` pair or propagated exception, the record store
afterwards, and the callback histories. -/
structure DSResult where
  ret : Except RunErr (Nat × Nat)
  store : Store
  progressLog : List (Nat × Nat)
  errorLog : List (String × String)

/-- Refs of the enumerated files, in order. -/
def refsOf (files : List SrcFile) : List String :=
  files.map fun f => f.ref

/-- Embedding of `index_dataset` (main/sources.py lines 201-372).

`files` is the enumeration of `<ref>.yaml` files under the source
directory (`refs_with_paths`), `refs` the optional requested subset,
`store0` the record store at entry.  With no candidate file the run
raises before reporting progress.  Otherwise progress `(total, 0)` is
reported once up front.  In partial mode (refs given) only the files
whose ref was requested are processed, inside one atomic transaction:
on an uncaught failure the store rolls back to `store0` (callback
histories are not transactional), otherwise the transaction also
deletes every row of this dataset whose ref is in `missing_refs =
requested_refs - indexed_refs`.  In full mode all files are processed
without a transaction — on failure the rows already upserted remain —
and on success every row of this dataset whose ref is not among the
enumerated files is deleted.  A normal return yields
`(total, len(indexed_refs))`. -/
def index_dataset (ctx : Ctx) (files : List SrcFile)
    (refs : Option (List String)) (store0 : Store) : DSResult :=
  let total := files.length
  if total < 1 then ⟨.error .nothingToIndex, store0, [], []⟩
  else
    let st0 : RunSt := ⟨store0, [], [(total, 0)], []⟩
    match refs with
    | some requested =>
      let subset := files.filter fun f => decide (f.ref ∈ requested)
      match index_requested ctx total subset 0 st0 with
      | (st, true) =>
        let missing := requested.filter fun r => decide (r ∉ st.indexedRefs)
        ⟨.ok (total, st.indexedRefs.length),
         st.store.filter fun r =>
           decide (¬(r.dataset = ctx.dsId ∧ r.ref ∈ missing)),
         st.progressLog, st.errorLog⟩
      | (st, false) =>
        ⟨.error .readError, store0, st.progressLog, st.errorLog⟩
    | none =>
      match index_requested ctx total files 0 st0 with
      | (st, true) =>
        ⟨.ok (total, st.indexedRefs.length),
         st.store.filter fun r =>
           decide (¬(r.dataset = ctx.dsId ∧ r.ref ∉ refsOf files)),
         st.progressLog, st.errorLog⟩
      | (st, false) =>
        ⟨.error .readError, st.store, st.progressLog, st.errorLog⟩

/-- The files actually iterated by `index_requested` in a run: the
requested subset in partial mode, every enumerated file in full mode. -/
def processedFiles (files : List SrcFile) (refs : Option (List String)) :
    List SrcFile :=
  match refs with
  | some requested => files.filter fun f => decide (f.ref ∈ requested)
  | none => files

/-- Whether processing a (non-raising) file ends in a persisted record:
strict validation succeeded, or re-validation after normalization did. -/
def persists (f : SrcFile) : Bool :=
  !f.raises &&
    (match f.doc.strictResult with
     | none => true
     | some _ => f.doc.normalizedOk)

/-! ## Concrete fixtures used by witnesses and counterexamples -/

/-- Reads a digit sequence as a natural number; `none` on a non-digit. -/
def parseDigits : List Char → Nat → Option Nat
  | [], acc => some acc
  | c :: rest, acc =>
    if c.isDigit then parseDigits rest (acc * 10 + (c.toNat - 48))
    else none

/-- A concrete ISO `YYYY-MM-DD` parser standing in for the external
strict parser `relaton.models.dates.parse_date_pydantic` in concrete
witnesses (dates encoded as `y*10000 + m*100 + d`). -/
def parseISO (s : String) : Option Nat :=
  match s.toList with
  | [y1, y2, y3, y4, '-', m1, m2, '-', d1, d2] =>
    match parseDigits [y1, y2, y3, y4] 0, parseDigits [m1, m2] 0,
        parseDigits [d1, d2] 0 with
    | some y, some m, some d => some (y * 10000 + m * 100 + d)
    | _, _, _ => none
  | _ => none

/-- Concrete registered git source with one backing repository whose
synchronized head is `"h1"`. -/
def wGctx : GitCtx := ⟨"src1", [("u", "b")], fun _ _ => "wd", fun _ _ => "h1"⟩

/-- Concrete well-behaved 4-argument indexer returning `(3, 2)`. -/
def wIndexer : PyIndexer := ⟨4, fun _ => .ok (3, 2)⟩

/-- Concrete 4-argument indexer that raises. -/
def wErrIndexer : PyIndexer := ⟨4, fun _ => .error (.indexerFailure "sync")⟩

/-- Concrete cache holding the fingerprint `"h1"` for `wGctx`. -/
def wCache : String → Option String := fun k =>
  if k = "src1_latest_indexed_heads" then some "h1" else none

/-- Concrete empty cache. -/
def wEmptyCache : String → Option String := fun _ => none

/-! ## Claims about `handle_index` -/

/-- C1: for every registered git source, calling `index` with
`force = false` when the fresh Source Fingerprint equals the cached
entry under `<source-id>_latest_indexed_heads` returns `(0, 0)` without
invoking the registered source-specific indexer, and every call with
`force = true` invokes the indexer regardless of the cached
fingerprint. -/
theorem C1_change_detection_short_circuit (ctx : GitCtx)
    (indexer : PyIndexer) (cache : String → Option String)
    (refs : Option (List String))
    (h : cache (latest_indexed_heads_key ctx.sourceId) =
      some (heads_serialized ctx)) :
    (handle_index ctx indexer cache refs false).ret = .ok (0, 0) ∧
    (handle_index ctx indexer cache refs false).invoked = false ∧
    ∀ cache' : String → Option String,
      (handle_index ctx indexer cache' refs true).invoked = true := by
  have hfix : handle_index ctx indexer cache refs false =
      ⟨.ok (0, 0), cache, false, none⟩ := by
    unfold handle_index
    simp [h]
  refine ⟨by rw [hfix], by rw [hfix], ?_⟩
  intro cache'
  unfold handle_index
  simp only [true_or, if_pos]
  cases hp : pyCall indexer (indexer_args ctx refs) <;> simp [hp]

/-- Witness for C1 at a concrete source, indexer and cache. -/
theorem C1_witness :
    (handle_index wGctx wIndexer wCache none false).ret = .ok (0, 0) ∧
    (handle_index wGctx wIndexer wCache none false).invoked = false ∧
    (handle_index wGctx wIndexer wCache none true).invoked = true :=
  ⟨(C1_change_detection_short_circuit wGctx wIndexer wCache none rfl).1,
   (C1_change_detection_short_circuit wGctx wIndexer wCache none rfl).2.1,
   (C1_change_detection_short_circuit wGctx wIndexer wCache none rfl).2.2
     wCache⟩

/-- C2: in every run of a registered source's `index` operation in
which the source-specific indexer is invoked, the cached entry under
`<source-id>_latest_indexed_heads` is overwritten with the fresh Source
Fingerprint when the indexer returns normally (and the indexer's pair is
returned); when the indexer raises, the exception propagates to the
caller and the whole cache is left unchanged.  A run that skips the
indexer also leaves the cache unchanged. -/
theorem C2_cache_updated_only_on_normal_return (ctx : GitCtx)
    (indexer : PyIndexer) (cache : String → Option String)
    (refs : Option (List String)) (force : Bool) :
    (∀ p, pyCall indexer (indexer_args ctx refs) = .ok p →
      (handle_index ctx indexer cache refs force).invoked = true →
      (handle_index ctx indexer cache refs force).ret = .ok p ∧
      (handle_index ctx indexer cache refs force).cache
          (latest_indexed_heads_key ctx.sourceId) =
        some (heads_serialized ctx)) ∧
    (∀ e, pyCall indexer (indexer_args ctx refs) = .error e →
      (handle_index ctx indexer cache refs force).invoked = true →
      (handle_index ctx indexer cache refs force).ret = .error e ∧
      (handle_index ctx indexer cache refs force).cache = cache) ∧
    ((handle_index ctx indexer cache refs force).invoked = false →
      (handle_index ctx indexer cache refs force).cache = cache) := by
  unfold handle_index
  by_cases hc : force = true ∨
      cache (latest_indexed_heads_key ctx.sourceId) ≠
        some (heads_serialized ctx)
  · cases hp : pyCall indexer (indexer_args ctx refs) <;>
      simp [hc, hp]
  · simp [hc]

/-- Witness for C2: the normal-return, raising and skipped cases at
concrete sources, indexers and caches. -/
theorem C2_witness :
    ((handle_index wGctx wIndexer wEmptyCache none false).ret =
        .ok (3, 2) ∧
      (handle_index wGctx wIndexer wEmptyCache none false).cache
          (latest_indexed_heads_key wGctx.sourceId) =
        some (heads_serialized wGctx)) ∧
    ((handle_index wGctx wErrIndexer wEmptyCache none false).ret =
        .error (.indexerFailure "sync") ∧
      (handle_index wGctx wErrIndexer wEmptyCache none false).cache =
        wEmptyCache) ∧
    ((handle_index wGctx wIndexer wCache none false).cache = wCache) :=
  ⟨(C2_cache_updated_only_on_normal_return wGctx wIndexer wEmptyCache none
      false).1 (3, 2) rfl rfl,
   (C2_cache_updated_only_on_normal_return wGctx wErrIndexer wEmptyCache none
      false).2.1 (.indexerFailure "sync") rfl rfl,
   (C2_cache_updated_only_on_normal_return wGctx wIndexer wCache none
      false).2.2 rfl⟩

/-- C5 (code evaluated at the failing configuration): `handle_index`
passes exactly four positional arguments — the synchronized working
directories, the requested refs and the two callbacks — but the indexer
lambda registered for every relaton source declares five parameters
`(ds_ver, dirs, refs, on_progress, on_error)`, so whenever the
change-detection check passes the dynamic call raises `TypeError`
instead of reaching `index_dataset`. -/
theorem C5_relaton_indexer_arity_mismatch (ctx : GitCtx)
    (idx : String → String → Option (List String) → Nat × Nat)
    (cache : String → Option String) (refs : Option (List String)) :
    (indexer_args ctx refs).length = 4 ∧
    (relaton_indexer idx).arity = 5 ∧
    (handle_index ctx (relaton_indexer idx) cache refs true).ret =
      .error .typeError := by
  refine ⟨rfl, rfl, ?_⟩
  unfold handle_index
  simp [pyCall, indexer_args, relaton_indexer]

/-! ## Infrastructure lemmas for `index_requested` / `index_dataset` -/

/-- The state after the `report_progress(total, idx)` call that opens
each iteration of the loop. -/
def progSt (total idx : Nat) (st : RunSt) : RunSt :=
  { st with progressLog := st.progressLog ++ [(total, idx)] }

/-- The state after the `normalize_relaxed` attempt: unchanged when the
pass returns normally, extended with the caught-and-reported
normalization error otherwise. -/
def normSt (f : SrcFile) (st : RunSt) : RunSt :=
  match f.doc.normalizeRaises with
  | some m =>
    { st with errorLog :=
        st.errorLog ++ [(f.ref, "Error during normalization:\n" ++ m)] }
  | none => st

@[simp]
theorem progSt_store (total idx : Nat) (st : RunSt) :
    (progSt total idx st).store = st.store := rfl

@[simp]
theorem progSt_indexedRefs (total idx : Nat) (st : RunSt) :
    (progSt total idx st).indexedRefs = st.indexedRefs := rfl

@[simp]
theorem progSt_errorLog (total idx : Nat) (st : RunSt) :
    (progSt total idx st).errorLog = st.errorLog := rfl

@[simp]
theorem progSt_progressLog (total idx : Nat) (st : RunSt) :
    (progSt total idx st).progressLog =
      st.progressLog ++ [(total, idx)] := rfl

@[simp]
theorem normSt_store (f : SrcFile) (st : RunSt) :
    (normSt f st).store = st.store := by
  unfold normSt
  cases f.doc.normalizeRaises <;> rfl

@[simp]
theorem normSt_indexedRefs (f : SrcFile) (st : RunSt) :
    (normSt f st).indexedRefs = st.indexedRefs := by
  unfold normSt
  cases f.doc.normalizeRaises <;> rfl

@[simp]
theorem normSt_progressLog (f : SrcFile) (st : RunSt) :
    (normSt f st).progressLog = st.progressLog := by
  unfold normSt
  cases f.doc.normalizeRaises <;> rfl

@[simp]
theorem persist_store (ctx : Ctx) (st : RunSt) (rf : String)
    (o : IndexingOutcome) (body : String) (ld : Nat) :
    (persist ctx st rf o body ld).store =
      update_or_create st.store ctx.dsId rf
        ⟨ctx.dsVersion, ctx.indexTs, o, body, ld⟩ := rfl

@[simp]
theorem persist_indexedRefs (ctx : Ctx) (st : RunSt) (rf : String)
    (o : IndexingOutcome) (body : String) (ld : Nat) :
    (persist ctx st rf o body ld).indexedRefs =
      (if rf ∈ st.indexedRefs then st.indexedRefs
       else st.indexedRefs ++ [rf]) := rfl

@[simp]
theorem persist_progressLog (ctx : Ctx) (st : RunSt) (rf : String)
    (o : IndexingOutcome) (body : String) (ld : Nat) :
    (persist ctx st rf o body ld).progressLog = st.progressLog := rfl

@[simp]
theorem persist_errorLog (ctx : Ctx) (st : RunSt) (rf : String)
    (o : IndexingOutcome) (body : String) (ld : Nat) :
    (persist ctx st rf o body ld).errorLog = st.errorLog := rfl

theorem stepFile_raises {f : SrcFile} (ctx : Ctx) (total idx : Nat)
    (st : RunSt) (h : f.raises = true) :
    stepFile ctx total idx st f = (progSt total idx st, false) := by
  simp [stepFile, progSt, h]

theorem stepFile_valid {f : SrcFile} (ctx : Ctx) (total idx : Nat)
    (st : RunSt) (h : f.raises = false)
    (h2 : f.doc.strictResult = none) :
    stepFile ctx total idx st f =
      (persist ctx (progSt total idx st) f.ref ⟨true, 0, []⟩
        f.doc.bodyStrict (latestDateOf ctx f.doc), true) := by
  simp [stepFile, progSt, h, h2]

theorem stepFile_recovered {f : SrcFile} {errs : List VErr} (ctx : Ctx)
    (total idx : Nat) (st : RunSt) (h : f.raises = false)
    (h2 : f.doc.strictResult = some errs)
    (h3 : f.doc.normalizedOk = true) :
    stepFile ctx total idx st f =
      (persist ctx (normSt f (progSt total idx st)) f.ref
        ⟨true, errs.length, errs⟩ f.doc.bodyNormalized
        (latestDateOf ctx f.doc), true) := by
  cases hnr : f.doc.normalizeRaises <;>
    simp [stepFile, progSt, normSt, h, h2, h3, hnr]

theorem stepFile_skip {f : SrcFile} {errs : List VErr} (ctx : Ctx)
    (total idx : Nat) (st : RunSt) (h : f.raises = false)
    (h2 : f.doc.strictResult = some errs)
    (h3 : f.doc.normalizedOk = false) :
    stepFile ctx total idx st f =
      ({ normSt f (progSt total idx st) with
          errorLog :=
            (normSt f (progSt total idx st)).errorLog ++
              [(f.ref, "Errors not resolved (item skipped):\n" ++
                errDesc errs)] }, true) := by
  cases hnr : f.doc.normalizeRaises <;>
    simp [stepFile, progSt, normSt, h, h2, h3, hnr]

theorem stepFile_progressLog (ctx : Ctx) (total idx : Nat) (st : RunSt)
    (f : SrcFile) :
    (stepFile ctx total idx st f).1.progressLog =
      st.progressLog ++ [(total, idx)] := by
  cases h : f.raises
  · cases h2 : f.doc.strictResult with
    | none => rw [stepFile_valid ctx total idx st h h2]; simp
    | some errs =>
      cases h3 : f.doc.normalizedOk
      · rw [stepFile_skip ctx total idx st h h2 h3]; simp
      · rw [stepFile_recovered ctx total idx st h h2 h3]; simp
  · rw [stepFile_raises ctx total idx st h]; simp

theorem index_requested_nil (ctx : Ctx) (total idx : Nat) (st : RunSt) :
    index_requested ctx total [] idx st = (st, true) := rfl

theorem index_requested_cons (ctx : Ctx) (total : Nat) (f : SrcFile)
    (rest : List SrcFile) (idx : Nat) (st : RunSt) :
    index_requested ctx total (f :: rest) idx st =
      (match stepFile ctx total idx st f with
       | (st', true) => index_requested ctx total rest (idx + 1) st'
       | (st', false) => (st', false)) := rfl

/-- Any row of the store after an upsert either was already present or
carries exactly the upsert's key and defaults. -/
theorem mem_update_or_create {store : Store} {ds rf : String}
    {d : Defaults} {r : RefData} (h : r ∈ update_or_create store ds rf d) :
    r ∈ store ∨
      (r.ref = rf ∧ r.dataset = ds ∧
        r.dataset_version = d.dataset_version ∧
        r.indexed_at = d.indexed_at ∧
        r.indexing_outcome = d.indexing_outcome ∧
        r.body = d.body ∧ r.latest_date = d.latest_date) := by
  unfold update_or_create at h
  split at h
  · obtain ⟨x, hx, hmap⟩ := List.mem_map.mp h
    by_cases hc : x.ref = rf ∧ x.dataset = ds
    · right
      rw [if_pos hc] at hmap
      subst hmap
      exact ⟨hc.1, hc.2, rfl, rfl, rfl, rfl, rfl⟩
    · left
      rw [if_neg hc] at hmap
      subst hmap
      exact hx
  · rcases List.mem_append.mp h with h' | h'
    · exact .inl h'
    · right
      have := List.mem_singleton.mp h'
      subst this
      exact ⟨rfl, rfl, rfl, rfl, rfl, rfl, rfl⟩

/-- An upsert keyed on a different ref leaves a row untouched. -/
theorem mem_update_or_create_of_ne {store : Store} {ds rf : String}
    {d : Defaults} {r : RefData} (hr : r ∈ store) (hne : r.ref ≠ rf) :
    r ∈ update_or_create store ds rf d := by
  have hc : ¬(r.ref = rf ∧ r.dataset = ds) := fun hc => hne hc.1
  unfold update_or_create
  split
  · exact List.mem_map.mpr ⟨r, hr, by rw [if_neg hc]⟩
  · exact List.mem_append.mpr (.inl hr)

/-- Any row of the store after one loop iteration either was already
present or is this file's freshly persisted record: it carries the
file's ref, this dataset's id, the `latest_date` computed from the
file's document, a `success = true` outcome and this run's dataset
version and timestamp. -/
theorem stepFile_store_cases {ctx : Ctx} {total idx : Nat} {st : RunSt}
    {f : SrcFile} {r : RefData}
    (h : r ∈ (stepFile ctx total idx st f).1.store) :
    r ∈ st.store ∨
      (r.ref = f.ref ∧ r.dataset = ctx.dsId ∧
        r.dataset_version = ctx.dsVersion ∧
        r.indexed_at = ctx.indexTs ∧
        r.latest_date = latestDateOf ctx f.doc ∧
        r.indexing_outcome.success = true) := by
  cases hr : f.raises
  · cases h2 : f.doc.strictResult with
    | none =>
      rw [stepFile_valid ctx total idx st hr h2] at h
      simp only [persist_store, progSt_store] at h
      rcases mem_update_or_create h with h' | h'
      · exact .inl h'
      · exact .inr ⟨h'.1, h'.2.1, h'.2.2.1, h'.2.2.2.1, h'.2.2.2.2.2.2,
          by rw [h'.2.2.2.2.1]⟩
    | some errs =>
      cases h3 : f.doc.normalizedOk
      · rw [stepFile_skip ctx total idx st hr h2 h3] at h
        simp only [normSt_store, progSt_store] at h
        exact .inl h
      · rw [stepFile_recovered ctx total idx st hr h2 h3] at h
        simp only [persist_store, normSt_store, progSt_store] at h
        rcases mem_update_or_create h with h' | h'
        · exact .inl h'
        · exact .inr ⟨h'.1, h'.2.1, h'.2.2.1, h'.2.2.2.1, h'.2.2.2.2.2.2,
            by rw [h'.2.2.2.2.1]⟩
  · rw [stepFile_raises ctx total idx st hr] at h
    simp only [progSt_store] at h
    exact .inl h

/-- A row whose ref differs from the file's, or whose file's record is
not persisted, survives one loop iteration unchanged. -/
theorem stepFile_frame {ctx : Ctx} {total idx : Nat} {st : RunSt}
    {f : SrcFile} {r : RefData} (hr : r ∈ st.store)
    (hf : f.ref ≠ r.ref ∨ persists f = false) :
    r ∈ (stepFile ctx total idx st f).1.store := by
  cases hraises : f.raises
  · cases h2 : f.doc.strictResult with
    | none =>
      rw [stepFile_valid ctx total idx st hraises h2]
      simp only [persist_store, progSt_store]
      rcases hf with hf | hf
      · exact mem_update_or_create_of_ne hr (fun e => hf e.symm)
      · exfalso
        simp [persists, hraises, h2] at hf
    | some errs =>
      cases h3 : f.doc.normalizedOk
      · rw [stepFile_skip ctx total idx st hraises h2 h3]
        simpa only [normSt_store, progSt_store] using hr
      · rw [stepFile_recovered ctx total idx st hraises h2 h3]
        simp only [persist_store, normSt_store, progSt_store]
        rcases hf with hf | hf
        · exact mem_update_or_create_of_ne hr (fun e => hf e.symm)
        · exfalso
          simp [persists, hraises, h2, h3] at hf
  · rw [stepFile_raises ctx total idx st hraises]
    simpa only [progSt_store] using hr

/-- The `indexed_refs` set after one loop iteration: unchanged, or
extended with the file's ref. -/
theorem stepFile_indexedRefs (ctx : Ctx) (total idx : Nat) (st : RunSt)
    (f : SrcFile) :
    (stepFile ctx total idx st f).1.indexedRefs = st.indexedRefs ∨
      ((stepFile ctx total idx st f).1.indexedRefs =
        st.indexedRefs ++ [f.ref] ∧ f.ref ∉ st.indexedRefs) := by
  cases hraises : f.raises
  · cases h2 : f.doc.strictResult with
    | none =>
      rw [stepFile_valid ctx total idx st hraises h2]
      simp only [persist_indexedRefs, progSt_indexedRefs]
      by_cases hm : f.ref ∈ st.indexedRefs
      · exact .inl (if_pos hm)
      · exact .inr ⟨if_neg hm, hm⟩
    | some errs =>
      cases h3 : f.doc.normalizedOk
      · rw [stepFile_skip ctx total idx st hraises h2 h3]
        exact .inl (by simp)
      · rw [stepFile_recovered ctx total idx st hraises h2 h3]
        simp only [persist_indexedRefs, normSt_indexedRefs,
          progSt_indexedRefs]
        by_cases hm : f.ref ∈ st.indexedRefs
        · exact .inl (if_pos hm)
        · exact .inr ⟨if_neg hm, hm⟩
  · rw [stepFile_raises ctx total idx st hraises]
    exact .inl rfl

/-- Any row of the store after the processing loop either was already
present or is the freshly persisted record of one of the processed
files. -/
theorem index_requested_store_cases {ctx : Ctx} {total : Nat}
    {fs : List SrcFile} {idx : Nat} {st : RunSt} {r : RefData}
    (h : r ∈ (index_requested ctx total fs idx st).1.store) :
    r ∈ st.store ∨
      ∃ f ∈ fs, r.ref = f.ref ∧ r.dataset = ctx.dsId ∧
        r.dataset_version = ctx.dsVersion ∧
        r.indexed_at = ctx.indexTs ∧
        r.latest_date = latestDateOf ctx f.doc ∧
        r.indexing_outcome.success = true := by
  induction fs generalizing idx st with
  | nil =>
    rw [index_requested_nil] at h
    exact .inl h
  | cons f rest ih =>
    rw [index_requested_cons] at h
    rcases hsf : stepFile ctx total idx st f with ⟨st', ok⟩
    rw [hsf] at h
    cases ok
    · have hst' : r ∈ st'.store := h
      rcases stepFile_store_cases (hsf ▸ hst' : r ∈ (stepFile ctx total idx st f).1.store) with h' | h'
      · exact .inl h'
      · exact .inr ⟨f, List.mem_cons_self f rest, h'⟩
    · rcases ih (h : r ∈ (index_requested ctx total rest (idx + 1) st').1.store) with h' | h'
      · rcases stepFile_store_cases (hsf ▸ h' : r ∈ (stepFile ctx total idx st f).1.store) with h'' | h''
        · exact .inl h''
        · exact .inr ⟨f, List.mem_cons_self f rest, h''⟩
      · obtain ⟨g, hg, hprops⟩ := h'
        exact .inr ⟨g, List.mem_cons_of_mem f hg, hprops⟩

/-- A row survives the processing loop untouched when every processed
file either has a different ref or does not persist a record. -/
theorem index_requested_frame {ctx : Ctx} {total : Nat}
    {fs : List SrcFile} {idx : Nat} {st : RunSt} {r : RefData}
    (hr : r ∈ st.store)
    (hf : ∀ f ∈ fs, f.ref ≠ r.ref ∨ persists f = false) :
    r ∈ (index_requested ctx total fs idx st).1.store := by
  induction fs generalizing idx st with
  | nil =>
    rw [index_requested_nil]
    exact hr
  | cons f rest ih =>
    rw [index_requested_cons]
    rcases hsf : stepFile ctx total idx st f with ⟨st', ok⟩
    have hst' : r ∈ st'.store := by
      have := @stepFile_frame ctx total idx st f r
        hr (hf f (List.mem_cons_self f rest))
      rw [hsf] at this
      exact this
    cases ok
    · exact hst'
    · exact ih hst' fun g hg => hf g (List.mem_cons_of_mem f hg)

/-- The `indexed_refs` set only grows, stays duplicate-free, and only
acquires refs of the processed files. -/
theorem index_requested_indexedRefs {ctx : Ctx} {total : Nat}
    {fs : List SrcFile} {idx : Nat} {st : RunSt} :
    (st.indexedRefs.Nodup →
      (index_requested ctx total fs idx st).1.indexedRefs.Nodup) ∧
    (index_requested ctx total fs idx st).1.indexedRefs ⊆
      st.indexedRefs ++ refsOf fs := by
  induction fs generalizing idx st with
  | nil =>
    rw [index_requested_nil]
    exact ⟨id, by simp [refsOf]⟩
  | cons f rest ih =>
    rw [index_requested_cons]
    rcases hsf : stepFile ctx total idx st f with ⟨st', ok⟩
    have hrefs : st'.indexedRefs = st.indexedRefs ∨
        (st'.indexedRefs = st.indexedRefs ++ [f.ref] ∧
          f.ref ∉ st.indexedRefs) := by
      have := stepFile_indexedRefs ctx total idx st f
      rw [hsf] at this
      exact this
    have hnodup : st.indexedRefs.Nodup → st'.indexedRefs.Nodup := by
      intro hn
      rcases hrefs with h | ⟨h, hnm⟩
      · rw [h]; exact hn
      · rw [h]
        exact List.nodup_append.mpr
          ⟨hn, List.nodup_singleton _, List.disjoint_singleton.mpr hnm⟩
    have hsub : st'.indexedRefs ⊆ st.indexedRefs ++ [f.ref] := by
      rcases hrefs with h | ⟨h, _⟩
      · rw [h]; exact fun x hx => List.mem_append.mpr (.inl hx)
      · rw [h]
        exact fun x hx => hx
    cases ok
    · constructor
      · exact fun hn => hnodup hn
      · intro x hx
        have := hsub hx
        rcases List.mem_append.mp this with h | h
        · exact List.mem_append.mpr (.inl h)
        · refine List.mem_append.mpr (.inr ?_)
          rw [List.mem_singleton.mp h]
          simp only [refsOf, List.map_cons]
          exact List.mem_cons_self f.ref _
    · constructor
      · exact fun hn => (@ih (idx + 1) st').1 (hnodup hn)
      · intro x hx
        have hx' := (@ih (idx + 1) st').2 hx
        rcases List.mem_append.mp hx' with h | h
        · have := hsub h
          rcases List.mem_append.mp this with h' | h'
          · exact List.mem_append.mpr (.inl h')
          · refine List.mem_append.mpr (.inr ?_)
            simp only [refsOf, List.map_cons]
            rw [List.mem_singleton.mp h']
            exact List.mem_cons_self f.ref _
        · refine List.mem_append.mpr (.inr ?_)
          simp only [refsOf, List.map_cons]
          exact List.mem_cons_of_mem f.ref (h : x ∈ refsOf rest)

/-- In a processing loop that completes without raising, the progress
history grows by exactly one `(total, i)` entry per processed file, with
`i` counting up from the starting `enumerate` index. -/
theorem index_requested_progressLog {ctx : Ctx} {total : Nat}
    {fs : List SrcFile} {idx : Nat} {st st' : RunSt}
    (h : index_requested ctx total fs idx st = (st', true)) :
    st'.progressLog =
      st.progressLog ++ (List.range' idx fs.length).map fun i => (total, i) := by
  induction fs generalizing idx st with
  | nil =>
    rw [index_requested_nil] at h
    cases h
    simp
  | cons f rest ih =>
    rw [index_requested_cons] at h
    rcases hsf : stepFile ctx total idx st f with ⟨st1, ok⟩
    rw [hsf] at h
    cases ok
    · exact absurd h (by simp)
    · have h1 : st1.progressLog = st.progressLog ++ [(total, idx)] := by
        have := stepFile_progressLog ctx total idx st f
        rw [hsf] at this
        exact this
      have h2 := ih h
      rw [h2, h1]
      simp only [List.length_cons, List.range'_succ, List.map_cons]
      simp [List.append_assoc]

/-! ## Concrete Part-2 fixtures -/

/-- Concrete run context: dataset `"ds"`, version `"v1"`, indexing
timestamp 100 with date 2024-01-01, ISO strict parser, relaxed parser
that accepts nothing. -/
def tCtx : Ctx := ⟨"ds", "v1", 100, 20240101, parseISO, fun _ => none⟩

/-- Document that validates strictly and carries two parseable dates. -/
def okDoc : RawDoc :=
  ⟨.many [some "2020-01-01", some "1999-12-31"], none, none, true,
   "bodyA", "nbodyA"⟩

/-- Document that fails strict validation and still fails after the
normalization pass. -/
def badDoc : RawDoc :=
  ⟨.absent, some [⟨"value_error", ["date", "0", "value"], "bad"⟩], none,
   false, "bodyB", "nbodyB"⟩

/-- Document that fails strict validation, whose normalization pass
raises, but which validates on the re-validation attempt. -/
def recoverDoc : RawDoc :=
  ⟨.absent, some [⟨"value_error", ["title"], "loose"⟩], some "boom", true,
   "bodyC", "nbodyC"⟩

/-- Well-formed source file for ref `"A"`. -/
def fileA : SrcFile := ⟨"A", false, okDoc⟩

/-- Source file for ref `"B"` whose record fails both validations. -/
def fileB : SrcFile := ⟨"B", false, badDoc⟩

/-- Source file for ref `"C"` whose normalization raises but whose
re-validation succeeds. -/
def fileC : SrcFile := ⟨"C", false, recoverDoc⟩

/-- Source file for ref `"A"` whose record fails both validations. -/
def fileAbad : SrcFile := ⟨"A", false, badDoc⟩

/-- Previously indexed good record for ref `"A"` of dataset `"ds"`. -/
def recA : RefData := ⟨"ds", "A", "v0", 50, ⟨true, 0, []⟩, "old", 111⟩

/-- Previously indexed good record for ref `"B"` of dataset `"ds"`. -/
def recB : RefData := ⟨"ds", "B", "v0", 50, ⟨true, 0, []⟩, "oldB", 111⟩

/-! ## Claims about `index_dataset` -/


/-- The initial run state of `index_dataset`: entry store, empty
`indexed_refs`, the opening `report_progress(total, 0)` call, no errors
reported yet. -/
def runSt0 (total : Nat) (store0 : Store) : RunSt :=
  ⟨store0, [], [(total, 0)], []⟩

/-- Unfolding equation for a partial-mode (`refs` given) run of
`index_dataset`, in terms of the result of the inner processing loop. -/
theorem index_dataset_partial_run {ctx : Ctx} {files : List SrcFile}
    {requested : List String} {store0 : Store} {st : RunSt} {ok : Bool}
    (hlen : ¬files.length < 1)
    (hrun : index_requested ctx files.length
      (files.filter fun f => decide (f.ref ∈ requested)) 0
      (runSt0 files.length store0) = (st, ok)) :
    index_dataset ctx files (some requested) store0 =
      if ok then
        ⟨.ok (files.length, st.indexedRefs.length),
         st.store.filter fun r =>
           decide (¬(r.dataset = ctx.dsId ∧
             r.ref ∈ requested.filter fun x =>
               decide (x ∉ st.indexedRefs))),
         st.progressLog, st.errorLog⟩
      else ⟨.error .readError, store0, st.progressLog, st.errorLog⟩ := by
  unfold runSt0 at hrun
  simp only [index_dataset, if_neg hlen]
  rw [hrun]
  cases ok <;> simp

/-- Unfolding equation for a full-mode (`refs` omitted) run of
`index_dataset`, in terms of the result of the inner processing loop. -/
theorem index_dataset_full_run {ctx : Ctx} {files : List SrcFile}
    {store0 : Store} {st : RunSt} {ok : Bool}
    (hlen : ¬files.length < 1)
    (hrun : index_requested ctx files.length files 0
      (runSt0 files.length store0) = (st, ok)) :
    index_dataset ctx files none store0 =
      if ok then
        ⟨.ok (files.length, st.indexedRefs.length),
         st.store.filter fun r =>
           decide (¬(r.dataset = ctx.dsId ∧ r.ref ∉ refsOf files)),
         st.progressLog, st.errorLog⟩
      else ⟨.error .readError, st.store, st.progressLog, st.errorLog⟩ := by
  unfold runSt0 at hrun
  simp only [index_dataset, if_neg hlen]
  rw [hrun]
  cases ok <;> simp

/-- With no candidate file, `index_dataset` raises
`RuntimeError("Nothing to index")` before touching anything. -/
theorem index_dataset_empty {ctx : Ctx} {refs : Option (List String)}
    {store0 : Store} :
    index_dataset ctx [] refs store0 =
      ⟨.error .nothingToIndex, store0, [], []⟩ := by
  simp [index_dataset]

/-- C10: every normal return of `index_dataset` yields a pair
`(total, indexed)` with `total` the count of all enumerated candidate
files (also in partial mode), `total ≥ 1`, and `indexed` the number of
distinct refs persisted in this run — a duplicate-free subset of the
refs of the processed files — so `0 ≤ indexed ≤ total`. -/
theorem C10_total_and_indexed_bounds (ctx : Ctx) (files : List SrcFile)
    (refs : Option (List String)) (store0 : Store) (t i : Nat)
    (h : (index_dataset ctx files refs store0).ret = .ok (t, i)) :
    t = files.length ∧ 1 ≤ t ∧ i ≤ t ∧
    ∃ st : RunSt,
      index_requested ctx files.length (processedFiles files refs) 0
        (runSt0 files.length store0) = (st, true) ∧
      i = st.indexedRefs.length ∧ st.indexedRefs.Nodup ∧
      ∀ x ∈ st.indexedRefs, x ∈ refsOf (processedFiles files refs) := by
  by_cases hlen : files.length < 1
  · have hnil : files = [] := List.length_eq_zero.mp (by omega)
    subst hnil
    rw [index_dataset_empty] at h
    exact absurd h (by simp)
  · cases refs with
    | some requested =>
      rcases hrun : index_requested ctx files.length
          (files.filter fun f => decide (f.ref ∈ requested)) 0
          (runSt0 files.length store0) with ⟨st, ok⟩
      rw [index_dataset_partial_run hlen hrun] at h
      cases ok
      · simp at h
      · simp only [if_true, Except.ok.injEq, Prod.mk.injEq] at h
        obtain ⟨ht, hi⟩ := h
        have hI := @index_requested_indexedRefs ctx files.length
          (files.filter fun f => decide (f.ref ∈ requested))
          0 (runSt0 files.length store0)
        have hnodup : st.indexedRefs.Nodup := by
          have := hI.1 (by simp [runSt0])
          rw [hrun] at this
          exact this
        have hsub : st.indexedRefs ⊆
            refsOf (files.filter fun f => decide (f.ref ∈ requested)) := by
          have := hI.2
          rw [hrun] at this
          simpa [runSt0] using this
        have hlen2 : st.indexedRefs.length ≤ files.length := by
          have h1 := (List.subperm_of_subset hnodup hsub).length_le
          have h2 : (refsOf (files.filter
              fun f => decide (f.ref ∈ requested))).length ≤
              files.length := by
            simpa [refsOf] using List.length_filter_le
              (fun f => decide (f.ref ∈ requested)) files
          exact le_trans h1 h2
        refine ⟨ht.symm, by omega, by omega, st, ?_, hi.symm, hnodup, ?_⟩
        · simpa [processedFiles] using hrun
        · intro x hx
          simpa [processedFiles] using hsub hx
    | none =>
      rcases hrun : index_requested ctx files.length files 0
          (runSt0 files.length store0) with ⟨st, ok⟩
      rw [index_dataset_full_run hlen hrun] at h
      cases ok
      · simp at h
      · simp only [if_true, Except.ok.injEq, Prod.mk.injEq] at h
        obtain ⟨ht, hi⟩ := h
        have hI := @index_requested_indexedRefs ctx files.length
          files 0 (runSt0 files.length store0)
        have hnodup : st.indexedRefs.Nodup := by
          have := hI.1 (by simp [runSt0])
          rw [hrun] at this
          exact this
        have hsub : st.indexedRefs ⊆ refsOf files := by
          have := hI.2
          rw [hrun] at this
          simpa [runSt0] using this
        have hlen2 : st.indexedRefs.length ≤ files.length := by
          have h1 := (List.subperm_of_subset hnodup hsub).length_le
          simpa [refsOf] using h1
        refine ⟨ht.symm, by omega, by omega, st, ?_, hi.symm, hnodup, ?_⟩
        · simpa [processedFiles] using hrun
        · intro x hx
          simpa [processedFiles] using hsub hx

/-- Witness for C10 at a concrete full-mode run with one persisted and
one skipped file. -/
theorem C10_witness :
    2 = [fileA, fileB].length ∧ 1 ≤ 2 ∧ 1 ≤ 2 :=
  ⟨(C10_total_and_indexed_bounds tCtx [fileA, fileB] none [] 2 1 rfl).1,
   (C10_total_and_indexed_bounds tCtx [fileA, fileB] none [] 2 1 rfl).2.1,
   (C10_total_and_indexed_bounds tCtx [fileA, fileB] none [] 2 1 rfl).2.2.1⟩

/-- Any row of the store after a whole `index_dataset` call either was
in the entry store or is the persisted record of one of the processed
files (carrying the run's dataset id, version, timestamp, the computed
latest date and a successful outcome). -/
theorem index_dataset_store_cases {ctx : Ctx} {files : List SrcFile}
    {refs : Option (List String)} {store0 : Store} {r : RefData}
    (h : r ∈ (index_dataset ctx files refs store0).store) :
    r ∈ store0 ∨
      ∃ f ∈ processedFiles files refs, r.ref = f.ref ∧
        r.dataset = ctx.dsId ∧ r.dataset_version = ctx.dsVersion ∧
        r.indexed_at = ctx.indexTs ∧
        r.latest_date = latestDateOf ctx f.doc ∧
        r.indexing_outcome.success = true := by
  by_cases hlen : files.length < 1
  · have hnil : files = [] := List.length_eq_zero.mp (by omega)
    subst hnil
    rw [index_dataset_empty] at h
    exact .inl h
  · cases refs with
    | some requested =>
      rcases hrun : index_requested ctx files.length
          (files.filter fun f => decide (f.ref ∈ requested)) 0
          (runSt0 files.length store0) with ⟨st, ok⟩
      rw [index_dataset_partial_run hlen hrun] at h
      cases ok
      · exact .inl h
      · have hst : r ∈ st.store := List.mem_of_mem_filter h
        have hmem : r ∈ (index_requested ctx files.length
            (files.filter fun f => decide (f.ref ∈ requested)) 0
            (runSt0 files.length store0)).1.store := by
          rw [hrun]; exact hst
        rcases index_requested_store_cases hmem with h' | ⟨f, hf, hprops⟩
        · exact .inl h'
        · exact .inr ⟨f, by simpa [processedFiles] using hf, hprops⟩
    | none =>
      rcases hrun : index_requested ctx files.length files 0
          (runSt0 files.length store0) with ⟨st, ok⟩
      rw [index_dataset_full_run hlen hrun] at h
      cases ok
      · have hst : r ∈ st.store := h
        have hmem : r ∈ (index_requested ctx files.length files 0
            (runSt0 files.length store0)).1.store := by
          rw [hrun]; exact hst
        rcases index_requested_store_cases hmem with h' | ⟨f, hf, hprops⟩
        · exact .inl h'
        · exact .inr ⟨f, by simpa [processedFiles] using hf, hprops⟩
      · have hst : r ∈ st.store := List.mem_of_mem_filter h
        have hmem : r ∈ (index_requested ctx files.length files 0
            (runSt0 files.length store0)).1.store := by
          rw [hrun]; exact hst
        rcases index_requested_store_cases hmem with h' | ⟨f, hf, hprops⟩
        · exact .inl h'
        · exact .inr ⟨f, by simpa [processedFiles] using hf, hprops⟩

/-- C9: every record `index_dataset` writes to the store has an
indexing outcome with `success = true` (it persists either with zero
validation errors or after normalization recovered the failure), so a
store that contained no record flagged as unsuccessfully indexed still
contains none after any run. -/
theorem C9_no_failed_record_persisted (ctx : Ctx) (files : List SrcFile)
    (refs : Option (List String)) (store0 : Store) :
    (∀ r ∈ (index_dataset ctx files refs store0).store,
      r ∈ store0 ∨ r.indexing_outcome.success = true) ∧
    ((∀ r ∈ store0, r.indexing_outcome.success = true) →
      ∀ r ∈ (index_dataset ctx files refs store0).store,
        r.indexing_outcome.success = true) := by
  constructor
  · intro r hr
    rcases index_dataset_store_cases hr with h | ⟨f, hf, h1, h2, h3, h4, h5, h6⟩
    · exact .inl h
    · exact .inr h6
  · intro h0 r hr
    rcases index_dataset_store_cases hr with h | ⟨f, hf, h1, h2, h3, h4, h5, h6⟩
    · exact h0 r h
    · exact h6

/-- The record persisted for `fileA` by the concrete run used in the
Part-2 witnesses. -/
def recAnew : RefData :=
  ⟨"ds", "A", "v1", 100, ⟨true, 0, []⟩, "bodyA", 20200101⟩

/-- Witness for C9 at a concrete run starting from the empty store. -/
theorem C9_witness : recAnew.indexing_outcome.success = true :=
  (C9_no_failed_record_persisted tCtx [fileA, fileB] none []).2
    (by simp) recAnew (by decide)

/-- Every processed file is one of the enumerated files. -/
theorem processedFiles_subset {files : List SrcFile}
    {refs : Option (List String)} {f : SrcFile}
    (h : f ∈ processedFiles files refs) : f ∈ files := by
  cases refs with
  | some requested => exact List.mem_of_mem_filter h
  | none => exact h

/-- C7: every record persisted by an `index_dataset` run carries
`latest_date` equal to the maximum of the dates extracted from its
document's date field — each value tried with the strict parser first
and the relaxed parser as fallback — defaulting to the indexing
timestamp's date when nothing parses. -/
theorem C7_latest_date_extraction (ctx : Ctx) (files : List SrcFile)
    (refs : Option (List String)) (store0 : Store) :
    (∀ r ∈ (index_dataset ctx files refs store0).store,
      r ∈ store0 ∨
        ∃ f ∈ files, r.ref = f.ref ∧
          r.latest_date =
            latestDate
              (to_dates ctx.strict ctx.relaxed (as_list f.doc.date))
              ctx.indexDate) ∧
    (∀ (strict : String → Option Nat)
        (relaxed : String → Option (Nat × String)) (v : String)
        (rest : List (Option String)) (d : Nat),
      v ≠ "" → strict v = some d →
        to_dates strict relaxed (some v :: rest) =
          d :: to_dates strict relaxed rest) ∧
    (∀ (strict : String → Option Nat)
        (relaxed : String → Option (Nat × String)) (v : String)
        (rest : List (Option String)) (d : Nat) (s : String),
      v ≠ "" → strict v = none → relaxed v = some (d, s) →
        to_dates strict relaxed (some v :: rest) =
          d :: to_dates strict relaxed rest) ∧
    (∀ dflt : Nat, latestDate [] dflt = dflt) := by
  refine ⟨?_, ?_, ?_, fun _ => rfl⟩
  · intro r hr
    rcases index_dataset_store_cases hr with h | ⟨f, hf, h1, _, _, _, h5, _⟩
    · exact .inl h
    · exact .inr ⟨f, processedFiles_subset hf, h1, h5⟩
  · intro strict relaxed v rest d hv hs
    simp [to_dates, hv, hs]
  · intro strict relaxed v rest d s hv hs hr
    simp [to_dates, hv, hs, hr]

/-- Witness for C7: the record persisted for `fileA` (date values
`2020-01-01` and `1999-12-31`) and the concrete parser equations. -/
theorem C7_witness :
    (recAnew ∈ ([] : Store) ∨
      ∃ f ∈ [fileA], recAnew.ref = f.ref ∧
        recAnew.latest_date =
          latestDate
            (to_dates tCtx.strict tCtx.relaxed (as_list f.doc.date))
            tCtx.indexDate) ∧
    (to_dates parseISO (fun _ => none)
        (some "2020-01-01" :: [some "1999-12-31"]) =
      20200101 :: to_dates parseISO (fun _ => none) [some "1999-12-31"]) ∧
    latestDate [] 20240101 = 20240101 :=
  ⟨(C7_latest_date_extraction tCtx [fileA] none []).1 recAnew (by decide),
   (C7_latest_date_extraction tCtx [fileA] none []).2.1 parseISO
     (fun _ => none) "2020-01-01" [some "1999-12-31"] 20200101
     (by decide) (by decide),
   (C7_latest_date_extraction tCtx [fileA] none []).2.2.2 20240101⟩

/-- C8 (amended): in every `index_dataset` run that returns normally,
the progress callback fires once before any file with `(total, 0)` and
then once more before each processed file with `(total, i)` where `i` is
the file's **0-based** position among the processed files (the i-th file
of total is reported as index `i - 1`). -/
theorem C8_progress_reports_zero_based (ctx : Ctx) (files : List SrcFile)
    (refs : Option (List String)) (store0 : Store) (t i : Nat)
    (h : (index_dataset ctx files refs store0).ret = .ok (t, i)) :
    (index_dataset ctx files refs store0).progressLog =
      (t, 0) :: (List.range (processedFiles files refs).length).map
        fun j => (t, j) := by
  by_cases hlen : files.length < 1
  · have hnil : files = [] := List.length_eq_zero.mp (by omega)
    subst hnil
    rw [index_dataset_empty] at h
    exact absurd h (by simp)
  · cases refs with
    | some requested =>
      rcases hrun : index_requested ctx files.length
          (files.filter fun f => decide (f.ref ∈ requested)) 0
          (runSt0 files.length store0) with ⟨st, ok⟩
      have heq := index_dataset_partial_run hlen hrun
      rw [heq] at h ⊢
      cases ok
      · simp at h
      · simp only [if_true, Except.ok.injEq, Prod.mk.injEq] at h
        obtain ⟨ht, hi⟩ := h
        have hp := index_requested_progressLog hrun
        simp only [if_true]
        rw [hp]
        simp [runSt0, processedFiles, List.range_eq_range', ht]
    | none =>
      rcases hrun : index_requested ctx files.length files 0
          (runSt0 files.length store0) with ⟨st, ok⟩
      have heq := index_dataset_full_run hlen hrun
      rw [heq] at h ⊢
      cases ok
      · simp at h
      · simp only [if_true, Except.ok.injEq, Prod.mk.injEq] at h
        obtain ⟨ht, hi⟩ := h
        have hp := index_requested_progressLog hrun
        simp only [if_true]
        rw [hp]
        simp [runSt0, processedFiles, List.range_eq_range', ht]

/-- Witness for C8's amended statement at a concrete two-file run. -/
theorem C8_witness :
    (index_dataset tCtx [fileA, fileB] none []).progressLog =
      (2, 0) :: (List.range (processedFiles [fileA, fileB] none).length).map
        fun j => (2, j) :=
  C8_progress_reports_zero_based tCtx [fileA, fileB] none [] 2 1 rfl

/-- Counterexample to C8 as stated: in a completed two-file run the
loop's calls are `(2, 0)` and `(2, 1)` — the second file of two is never
reported as index `2`, so the per-file index is 0-based, not 1-based. -/
theorem C8_counterexample :
    (index_dataset tCtx [fileA, fileB] none []).ret = .ok (2, 1) ∧
    (index_dataset tCtx [fileA, fileB] none []).progressLog =
      [(2, 0), (2, 0), (2, 1)] ∧
    (2, 2) ∉ (index_dataset tCtx [fileA, fileB] none []).progressLog :=
  ⟨rfl, rfl, by decide⟩

/-- Source file for ref `"A"` whose read raises an IO/parse error. -/
def fileAraise : SrcFile := ⟨"A", true, okDoc⟩

/-- C3 (amended): in partial mode the requested subset is indexed
inside one atomic transaction — any uncaught failure rolls the whole
batch back to the entry store and propagates — and on success the run
deletes exactly those records of this dataset whose ref was requested
but **not successfully indexed** in this run (which covers both
requested refs missing from the enumerated files and requested refs
whose file failed validation); no record whose ref was not requested is
deleted. -/
theorem C3_partial_mode_transaction_and_deletion (ctx : Ctx)
    (files : List SrcFile) (requested : List String) (store0 : Store) :
    (∀ st : RunSt,
      index_requested ctx files.length
          (files.filter fun f => decide (f.ref ∈ requested)) 0
          (runSt0 files.length store0) = (st, false) →
      (index_dataset ctx files (some requested) store0).store = store0 ∧
      (index_dataset ctx files (some requested) store0).ret =
        .error .readError) ∧
    (∀ st : RunSt, 1 ≤ files.length →
      index_requested ctx files.length
          (files.filter fun f => decide (f.ref ∈ requested)) 0
          (runSt0 files.length store0) = (st, true) →
      (index_dataset ctx files (some requested) store0).ret =
        .ok (files.length, st.indexedRefs.length) ∧
      ∀ r : RefData,
        r ∈ (index_dataset ctx files (some requested) store0).store ↔
          (r ∈ st.store ∧
            ¬(r.dataset = ctx.dsId ∧ r.ref ∈ requested ∧
              r.ref ∉ st.indexedRefs))) ∧
    (∀ r ∈ store0, r.ref ∉ requested →
      r ∈ (index_dataset ctx files (some requested) store0).store) := by
  refine ⟨?_, ?_, ?_⟩
  · intro st h
    by_cases hlen : files.length < 1
    · have hnil : files = [] := List.length_eq_zero.mp (by omega)
      subst hnil
      rw [show (List.filter (fun f => decide (f.ref ∈ requested))
          ([] : List SrcFile)) = [] from rfl, index_requested_nil] at h
      simp at h
    · rw [index_dataset_partial_run hlen h]
      exact ⟨rfl, rfl⟩
  · intro st hlen1 h
    have hlen : ¬files.length < 1 := by omega
    rw [index_dataset_partial_run hlen h]
    simp only [if_true]
    refine ⟨by trivial, ?_⟩
    intro r
    constructor
    · intro hr
      rw [List.mem_filter] at hr
      obtain ⟨hmem, hp⟩ := hr
      rw [decide_eq_true_eq] at hp
      refine ⟨hmem, ?_⟩
      rintro ⟨ha, hb, hc⟩
      exact hp ⟨ha, List.mem_filter.mpr ⟨hb, by simpa using hc⟩⟩
    · rintro ⟨hmem, hn⟩
      rw [List.mem_filter]
      refine ⟨hmem, ?_⟩
      rw [decide_eq_true_eq]
      rintro ⟨ha, hm⟩
      rw [List.mem_filter] at hm
      exact hn ⟨ha, hm.1, by simpa using hm.2⟩
  · intro r hr hnreq
    by_cases hlen : files.length < 1
    · have hnil : files = [] := List.length_eq_zero.mp (by omega)
      subst hnil
      rw [index_dataset_empty]
      exact hr
    · rcases hrun : index_requested ctx files.length
          (files.filter fun f => decide (f.ref ∈ requested)) 0
          (runSt0 files.length store0) with ⟨st, ok⟩
      rw [index_dataset_partial_run hlen hrun]
      cases ok
      · exact hr
      · simp only [if_true]
        have hst : r ∈ st.store := by
          have hm : r ∈ (index_requested ctx files.length
              (files.filter fun f => decide (f.ref ∈ requested)) 0
              (runSt0 files.length store0)).1.store :=
            index_requested_frame hr fun f hf => by
              left
              intro he
              apply hnreq
              rw [← he]
              have := (List.mem_filter.mp hf).2
              simpa using this
          rw [hrun] at hm
          exact hm
        rw [List.mem_filter]
        refine ⟨hst, ?_⟩
        rw [decide_eq_true_eq]
        rintro ⟨ha, hm⟩
        rw [List.mem_filter] at hm
        exact hnreq hm.1

/-- The loop state after the failed partial run used in the C3
witness: the skipped record is reported, nothing was persisted. -/
def stC3 : RunSt :=
  ⟨[recA], [], [(1, 0), (1, 0)],
   [("A", "Errors not resolved (item skipped):\n" ++
     "value_error at date.0.value: bad")]⟩

/-- The loop state of the raising partial run used in the C3
witness. -/
def stC3raise : RunSt := ⟨[recA], [], [(1, 0), (1, 0)], []⟩

/-- Witness for C3's amended statement: rollback on a raising run,
exact deletion of the requested-but-not-indexed ref `"A"`, and
preservation of the non-requested record `recB`. -/
theorem C3_witness :
    ((index_dataset tCtx [fileAraise] (some ["A"]) [recA]).store =
        [recA] ∧
      (index_dataset tCtx [fileAraise] (some ["A"]) [recA]).ret =
        .error .readError) ∧
    ((index_dataset tCtx [fileAbad] (some ["A"]) [recA]).ret =
        .ok (1, 0) ∧
      (recA ∈ (index_dataset tCtx [fileAbad] (some ["A"]) [recA]).store ↔
        (recA ∈ stC3.store ∧
          ¬(recA.dataset = tCtx.dsId ∧ recA.ref ∈ ["A"] ∧
            recA.ref ∉ stC3.indexedRefs)))) ∧
    recB ∈ (index_dataset tCtx [fileAbad] (some ["A"]) [recB]).store :=
  ⟨(C3_partial_mode_transaction_and_deletion tCtx [fileAraise] ["A"]
      [recA]).1 stC3raise rfl,
   ⟨((C3_partial_mode_transaction_and_deletion tCtx [fileAbad] ["A"]
        [recA]).2.1 stC3 (by decide) rfl).1,
    ((C3_partial_mode_transaction_and_deletion tCtx [fileAbad] ["A"]
        [recA]).2.1 stC3 (by decide) rfl).2 recA⟩,
   (C3_partial_mode_transaction_and_deletion tCtx [fileAbad] ["A"]
      [recB]).2.2 recB (by decide) (by decide)⟩

/-- Counterexample to C3 as stated: in the partial run requesting
`["A"]` where the file for `"A"` **is** among the enumerated source
files but fails validation, the previously stored record for `"A"` is
deleted — the deletion set is requested-minus-indexed, not
requested-minus-found. -/
theorem C3_counterexample :
    "A" ∈ refsOf [fileAbad] ∧
    (index_dataset tCtx [fileAbad] (some ["A"]) [recA]).ret = .ok (1, 0) ∧
    recA ∉ (index_dataset tCtx [fileAbad] (some ["A"]) [recA]).store ∧
    (index_dataset tCtx [fileAbad] (some ["A"]) [recA]).store = [] :=
  ⟨by decide, rfl, by decide, rfl⟩

/-- C4 (amended): in full mode records are committed file-by-file with
no surrounding transaction — on an uncaught failure the rows already
upserted remain committed and the exception propagates — and after a
completed pass the run deletes exactly the existing records of this
dataset whose ref was not observed among the enumerated files.  A
record that fails both validations is excluded from `indexedCount`, but
its ref **is** among the enumerated files used for the stale-eviction,
so a previously-good stored record for that ref is protected and
survives unchanged. -/
theorem C4_full_mode_eviction_protects_enumerated_refs (ctx : Ctx)
    (files : List SrcFile) (store0 : Store) :
    (∀ st : RunSt, 1 ≤ files.length →
      index_requested ctx files.length files 0
        (runSt0 files.length store0) = (st, true) →
      (index_dataset ctx files none store0).ret =
        .ok (files.length, st.indexedRefs.length) ∧
      ∀ r : RefData,
        r ∈ (index_dataset ctx files none store0).store ↔
          (r ∈ st.store ∧
            ¬(r.dataset = ctx.dsId ∧ r.ref ∉ refsOf files))) ∧
    (∀ st : RunSt,
      index_requested ctx files.length files 0
        (runSt0 files.length store0) = (st, false) →
      (index_dataset ctx files none store0).store = st.store ∧
      (index_dataset ctx files none store0).ret = .error .readError) ∧
    (∀ r ∈ store0,
      (∃ f ∈ files, f.ref = r.ref) →
      (∀ g ∈ files, g.ref = r.ref → persists g = false) →
      ∀ t i, (index_dataset ctx files none store0).ret = .ok (t, i) →
        r ∈ (index_dataset ctx files none store0).store) := by
  refine ⟨?_, ?_, ?_⟩
  · intro st hlen1 h
    have hlen : ¬files.length < 1 := by omega
    rw [index_dataset_full_run hlen h]
    simp only [if_true]
    refine ⟨by trivial, ?_⟩
    intro r
    rw [List.mem_filter, decide_eq_true_eq]
  · intro st h
    by_cases hlen : files.length < 1
    · have hnil : files = [] := List.length_eq_zero.mp (by omega)
      subst hnil
      rw [index_requested_nil] at h
      simp at h
    · rw [index_dataset_full_run hlen h]
      exact ⟨rfl, rfl⟩
  · intro r hr hex hfail t i hret
    by_cases hlen : files.length < 1
    · have hnil : files = [] := List.length_eq_zero.mp (by omega)
      subst hnil
      rw [index_dataset_empty] at hret
      exact absurd hret (by simp)
    · rcases hrun : index_requested ctx files.length files 0
          (runSt0 files.length store0) with ⟨st, ok⟩
      rw [index_dataset_full_run hlen hrun] at hret ⊢
      cases ok
      · simp at hret
      · simp only [if_true]
        have hst : r ∈ st.store := by
          have hm : r ∈ (index_requested ctx files.length files 0
              (runSt0 files.length store0)).1.store :=
            index_requested_frame hr fun g hg => by
              by_cases he : g.ref = r.ref
              · exact .inr (hfail g hg he)
              · exact .inl he
          rw [hrun] at hm
          exact hm
        rw [List.mem_filter, decide_eq_true_eq]
        refine ⟨hst, ?_⟩
        rintro ⟨-, hnm⟩
        obtain ⟨f, hf, hfr⟩ := hex
        exact hnm (List.mem_map.mpr ⟨f, hf, hfr⟩)

/-- The loop state after the completed full-mode run over `[fileB]`
starting from `[recB]`, used in the C4 witness. -/
def stC4 : RunSt :=
  ⟨[recB], [], [(1, 0), (1, 0)],
   [("B", "Errors not resolved (item skipped):\n" ++
     "value_error at date.0.value: bad")]⟩

/-- The loop state of the raising full-mode run used in the C4
witness. -/
def stC4raise : RunSt := ⟨[recB], [], [(1, 0), (1, 0)], []⟩

/-- Witness for C4's amended statement: the eviction equation of a
completed run, the no-rollback behaviour of a raising run, and the
survival of the previously-good record for the failing ref `"B"`. -/
theorem C4_witness :
    ((index_dataset tCtx [fileB] none [recB]).ret = .ok (1, 0) ∧
      (recB ∈ (index_dataset tCtx [fileB] none [recB]).store ↔
        (recB ∈ stC4.store ∧
          ¬(recB.dataset = tCtx.dsId ∧ recB.ref ∉ refsOf [fileB])))) ∧
    ((index_dataset tCtx [fileAraise] none [recB]).store =
        stC4raise.store ∧
      (index_dataset tCtx [fileAraise] none [recB]).ret =
        .error .readError) ∧
    recB ∈ (index_dataset tCtx [fileB] none [recB]).store :=
  ⟨⟨((C4_full_mode_eviction_protects_enumerated_refs tCtx [fileB]
        [recB]).1 stC4 (by decide) rfl).1,
    ((C4_full_mode_eviction_protects_enumerated_refs tCtx [fileB]
        [recB]).1 stC4 (by decide) rfl).2 recB⟩,
   (C4_full_mode_eviction_protects_enumerated_refs tCtx [fileAraise]
      [recB]).2.1 stC4raise rfl,
   (C4_full_mode_eviction_protects_enumerated_refs tCtx [fileB]
      [recB]).2.2 recB (by decide) ⟨fileB, List.mem_cons_self fileB [], rfl⟩
      (by intro g hg _; rw [List.mem_singleton.mp hg]; rfl) 1 0 rfl⟩

/-- Counterexample to C4 as stated: ref `"B"`'s file fails both
validations in a completed full-mode run, yet the previously-good
stored record for `"B"` is **not** deleted by the stale-eviction step —
the eviction set excludes every enumerated file's ref, not only the
successfully indexed ones. -/
theorem C4_counterexample :
    persists fileB = false ∧
    (index_dataset tCtx [fileB] none [recB]).ret = .ok (1, 0) ∧
    (index_dataset tCtx [fileB] none [recB]).store = [recB] :=
  ⟨rfl, rfl, rfl⟩

/-- When `normalize_relaxed` raises, the caught exception is appended
to the error history with the `Error during normalization` message. -/
theorem normSt_errorLog_some {f : SrcFile} {m : String} (st : RunSt)
    (h : f.doc.normalizeRaises = some m) :
    (normSt f st).errorLog =
      st.errorLog ++ [(f.ref, "Error during normalization:\n" ++ m)] := by
  unfold normSt
  rw [h]

/-- C6 (amended): for a record file whose strict validation fails,
(1) if the normalized re-validation still fails the record is reported
through the error callback as `Errors not resolved (item skipped):`
followed by one `<type> at <dotted.path>: <message>` line per error,
and is not persisted at all (neither the store nor the `indexed_refs`
set changes, and the run continues); (2) if the normalization pass
itself raises, the exception is caught and reported as
`Error during normalization: <message>`, but re-validation is still
attempted, and (3) when that re-validation succeeds the record **is**
persisted (flagged successful with the original error list) and counts
as indexed. -/
theorem C6_skip_and_normalization_raise_behaviour (ctx : Ctx)
    (total idx : Nat) (st : RunSt) (f : SrcFile) (errs : List VErr)
    (h : f.raises = false) (h2 : f.doc.strictResult = some errs) :
    (f.doc.normalizedOk = false →
      (stepFile ctx total idx st f).2 = true ∧
      (stepFile ctx total idx st f).1.store = st.store ∧
      (stepFile ctx total idx st f).1.indexedRefs = st.indexedRefs ∧
      (stepFile ctx total idx st f).1.errorLog =
        (normSt f (progSt total idx st)).errorLog ++
          [(f.ref, "Errors not resolved (item skipped):\n" ++
            errDesc errs)]) ∧
    (∀ m, f.doc.normalizeRaises = some m →
      (f.ref, "Error during normalization:\n" ++ m) ∈
        (stepFile ctx total idx st f).1.errorLog) ∧
    (f.doc.normalizedOk = true →
      (stepFile ctx total idx st f).1.store =
        update_or_create st.store ctx.dsId f.ref
          ⟨ctx.dsVersion, ctx.indexTs, ⟨true, errs.length, errs⟩,
            f.doc.bodyNormalized, latestDateOf ctx f.doc⟩ ∧
      f.ref ∈ (stepFile ctx total idx st f).1.indexedRefs) ∧
    errDesc errs =
      String.intercalate "\n" (errs.map fun e =>
        e.type ++ " at " ++ String.intercalate "." e.loc ++ ": " ++
          e.msg) := by
  refine ⟨?_, ?_, ?_, rfl⟩
  · intro h3
    rw [stepFile_skip ctx total idx st h h2 h3]
    exact ⟨rfl, by simp, by simp, rfl⟩
  · intro m hm
    cases h3 : f.doc.normalizedOk
    · rw [stepFile_skip ctx total idx st h h2 h3]
      show (f.ref, _) ∈ (normSt f (progSt total idx st)).errorLog ++ _
      rw [normSt_errorLog_some _ hm]
      exact List.mem_append.mpr (.inl (List.mem_append.mpr
        (.inr (List.mem_singleton.mpr rfl))))
    · rw [stepFile_recovered ctx total idx st h h2 h3]
      show (f.ref, _) ∈ (persist ctx (normSt f (progSt total idx st))
        f.ref _ _ _).errorLog
      rw [persist_errorLog, normSt_errorLog_some _ hm]
      exact List.mem_append.mpr (.inr (List.mem_singleton.mpr rfl))
  · intro h3
    rw [stepFile_recovered ctx total idx st h h2 h3]
    refine ⟨by simp, ?_⟩
    simp only [persist_indexedRefs, normSt_indexedRefs,
      progSt_indexedRefs]
    by_cases hm : f.ref ∈ st.indexedRefs
    · rw [if_pos hm]; exact hm
    · rw [if_neg hm]
      exact List.mem_append.mpr (.inr (List.mem_singleton.mpr rfl))

/-- Witness for C6's amended statement: the skipped record `fileB` and
the normalization-raising but recovered record `fileC`. -/
theorem C6_witness :
    ((stepFile tCtx 1 0 (runSt0 1 []) fileB).2 = true ∧
      (stepFile tCtx 1 0 (runSt0 1 []) fileB).1.store =
        (runSt0 1 []).store ∧
      (stepFile tCtx 1 0 (runSt0 1 []) fileB).1.indexedRefs =
        (runSt0 1 []).indexedRefs ∧
      (stepFile tCtx 1 0 (runSt0 1 []) fileB).1.errorLog =
        (normSt fileB (progSt 1 0 (runSt0 1 []))).errorLog ++
          [("B", "Errors not resolved (item skipped):\n" ++
            errDesc [⟨"value_error", ["date", "0", "value"], "bad"⟩])]) ∧
    ("C", "Error during normalization:\n" ++ "boom") ∈
      (stepFile tCtx 1 0 (runSt0 1 []) fileC).1.errorLog ∧
    ((stepFile tCtx 1 0 (runSt0 1 []) fileC).1.store =
      update_or_create (runSt0 1 []).store tCtx.dsId "C"
        ⟨tCtx.dsVersion, tCtx.indexTs,
          ⟨true, 1, [⟨"value_error", ["title"], "loose"⟩]⟩,
          "nbodyC", latestDateOf tCtx recoverDoc⟩ ∧
      "C" ∈ (stepFile tCtx 1 0 (runSt0 1 []) fileC).1.indexedRefs) :=
  ⟨(C6_skip_and_normalization_raise_behaviour tCtx 1 0 (runSt0 1 [])
      fileB [⟨"value_error", ["date", "0", "value"], "bad"⟩]
      rfl rfl).1 rfl,
   (C6_skip_and_normalization_raise_behaviour tCtx 1 0 (runSt0 1 [])
      fileC [⟨"value_error", ["title"], "loose"⟩] rfl rfl).2.1
     "boom" rfl,
   (C6_skip_and_normalization_raise_behaviour tCtx 1 0 (runSt0 1 [])
      fileC [⟨"value_error", ["title"], "loose"⟩] rfl rfl).2.2.1 rfl⟩

/-- Counterexample to C6 as stated: `fileC`'s strict validation fails
and its normalization pass raises, yet after the (successful)
re-validation the record **is** persisted — it appears in the store and
counts toward the indexed total — so a normalization-raise alone does
not imply "skip persisting this record entirely"; also the message
reported for the raise is `Error during normalization: <exception>`,
not a per-validation-error listing. -/
theorem C6_counterexample :
    recoverDoc.strictResult =
      some [⟨"value_error", ["title"], "loose"⟩] ∧
    recoverDoc.normalizeRaises = some "boom" ∧
    (index_dataset tCtx [fileC] none []).ret = .ok (1, 1) ∧
    (index_dataset tCtx [fileC] none []).store =
      [⟨"ds", "C", "v1", 100,
        ⟨true, 1, [⟨"value_error", ["title"], "loose"⟩]⟩,
        "nbodyC", 20240101⟩] ∧
    (index_dataset tCtx [fileC] none []).errorLog =
      [("C", "Error during normalization:\nboom")] :=
  ⟨rfl, rfl, rfl, rfl, rfl⟩
